import Mathlib

/-!
Shallow embedding of the `tabla` expense-tracking web application (`src/app.py`)
and the storage semantics of its declared SQLite schema.

Conventions:
* Python strings are Lean `String`s; the string primitives the app uses
  (`str.strip`, `str.title`, `str.capitalize`, `str.split`, `str.replace`,
  `int(...)`, `float(...)`, `werkzeug.utils.secure_filename`) are modelled
  character-by-character over `List Char` for the ASCII inputs the app handles.
* SQL `REAL` amounts are modelled as exact rationals (`ℚ`).
* `request.form` is a record of optional string fields plus checkbox presence
  flags; `request.files.get("receipt_path")` is an `Option RFile`.
* Fallible steps (missing form key, `int`/`float` conversion failure, SQLite
  constraint violation, `file.save` failure) return an `Option Err` alongside
  the successor state.
-/

namespace Tabla

/-! ## Character-level string primitives -/

/-- Whitespace characters stripped by Python's `str.strip()` (ASCII range). -/
def pyWs (c : Char) : Bool :=
  c == ' ' || c == '\t' || c == '\n' || c == '\r' || c == '\x0b' || c == '\x0c'

/-- Drop leading and trailing whitespace from a character list. -/
def stripChars (cs : List Char) : List Char :=
  ((cs.dropWhile pyWs).reverse.dropWhile pyWs).reverse

/-- Model of Python's `str.strip()`. -/
def pyStrip (s : String) : String :=
  ⟨stripChars s.data⟩

/-- Split a character list at every character satisfying `p`
(model of `str.split(sep)` for a one-character separator: empty pieces kept). -/
def splitOnPred (p : Char → Bool) : List Char → List (List Char)
  | [] => [[]]
  | c :: cs =>
      if p c then [] :: splitOnPred p cs
      else
        match splitOnPred p cs with
        | [] => [[c]]
        | g :: gs => (c :: g) :: gs

/-- Pieces of a character list separated by whitespace runs
(model of Python's no-argument `str.split()`: empty pieces dropped). -/
def pyWords (cs : List Char) : List (List Char) :=
  (splitOnPred pyWs cs).filter (fun w => !w.isEmpty)

/-- Model of Python's `str.title()` over ASCII: a letter that follows a
non-letter is uppercased, a letter that follows a letter is lowercased. -/
def titleChars : Bool → List Char → List Char
  | _, [] => []
  | prevCased, c :: cs =>
      if c.isAlpha then
        (if prevCased then c.toLower else c.toUpper) :: titleChars true cs
      else
        c :: titleChars false cs

/-- Model of Python's `str.title()`. -/
def pyTitle (s : String) : String :=
  ⟨titleChars false s.data⟩

/-- Model of Python's `str.capitalize()`: first character uppercased, the
rest lowercased. -/
def pyCapitalize (s : String) : String :=
  match s.data with
  | [] => ""
  | c :: cs => ⟨c.toUpper :: cs.map Char.toLower⟩

/-- Numeric value of a digit list (most significant first). -/
def digitsToNat (cs : List Char) : Nat :=
  cs.foldl (fun a c => a * 10 + (c.toNat - 48)) 0

/-- Model of Python's `int(...)` applied to a decimal digit string, as used on
`request.form["proveedor_id"]`.  Restricted domain: plain unsigned digit
strings (the form always submits the provider's id rendered in decimal). -/
def parseNat (s : String) : Option Nat :=
  if !s.data.isEmpty && s.data.all Char.isDigit then some (digitsToNat s.data)
  else none

/-- Model of Python's `float(...)` applied to `request.form["amount"]`.
Restricted domain: an optional sign followed by a plain decimal literal with
at most one dot (the HTML number input submits this shape); every other
string fails, as `float` raises `ValueError`. -/
def parseAmount (s : String) : Option ℚ :=
  let cs := stripChars s.data
  let signed : ℚ × List Char :=
    match cs with
    | '-' :: r => (-1, r)
    | '+' :: r => (1, r)
    | r => (1, r)
  let body := signed.2
  let ip := body.takeWhile (fun c => !(c == '.'))
  match body.dropWhile (fun c => !(c == '.')) with
  | [] =>
      if !ip.isEmpty && ip.all Char.isDigit then
        some (signed.1 * (digitsToNat ip : ℚ))
      else none
  | _ :: fp =>
      if (!ip.isEmpty || !fp.isEmpty) && ip.all Char.isDigit && fp.all Char.isDigit then
        some (signed.1 * ((digitsToNat ip : ℚ) + (digitsToNat fp : ℚ) / (10 : ℚ) ^ fp.length))
      else none

/-- Characters kept by werkzeug's `secure_filename` ASCII filter. -/
def secureKeep (c : Char) : Bool :=
  c.isAlphanum || c == '_' || c == '.' || c == '-'

/-- Model of `werkzeug.utils.secure_filename` for ASCII filenames: path
separators become spaces, whitespace-separated words are joined with
underscores, characters outside `[A-Za-z0-9_.-]` are removed, and leading or
trailing dots/underscores are stripped.  (The unicode NFKD normalisation and
the Windows reserved-device-name special case are outside the modelled
domain.) -/
def secure_filename (s : String) : String :=
  let noSep := s.data.map (fun c => if c == '/' || c == '\\' then ' ' else c)
  let joined := List.intercalate ['_'] (pyWords noSep)
  let kept := joined.filter secureKeep
  ⟨((kept.dropWhile (fun c => c == '.' || c == '_')).reverse.dropWhile
      (fun c => c == '.' || c == '_')).reverse⟩

/-! ## SQLite month extraction

The listing and export queries filter with `strftime('%Y-%m', e.date) = ?`.
SQLite's date parser (`parseYyyyMmDd`) accepts a date-only string exactly when
it is ten characters `YYYY-MM-DD` with all-digit components, month between 01
and 12 and day between 01 and 31 (days are bounds-checked but not validated
against the month, so `2024-02-31` is accepted); `%Y-%m` then renders the
parsed year and month zero-padded, i.e. the first seven characters of the
stored string.  On any other date-only string the parse fails and `strftime`
returns NULL, so the SQL comparison never matches.  Restricted domain: SQLite
additionally accepts a time-of-day suffix, numeric Julian-day strings and the
literal `now`; those inputs are outside the modelled domain and mapped to
`none`, matching the spec's §3 statement that dates are stored as
`YYYY-MM-DD` strings. -/

/-- Numeric value of a two-digit component. -/
def digit2 (a b : Char) : Nat :=
  10 * (a.toNat - 48) + (b.toNat - 48)

/-- Component check of SQLite's `parseYyyyMmDd`: all eight component
characters are digits, `01 ≤ MM ≤ 12`, `01 ≤ DD ≤ 31`. -/
def validYMD (y1 y2 y3 y4 m1 m2 d1 d2 : Char) : Bool :=
  y1.isDigit && y2.isDigit && y3.isDigit && y4.isDigit &&
  m1.isDigit && m2.isDigit && d1.isDigit && d2.isDigit &&
  Nat.ble 1 (digit2 m1 m2) && Nat.ble (digit2 m1 m2) 12 &&
  Nat.ble 1 (digit2 d1 d2) && Nat.ble (digit2 d1 d2) 31

/-- Model of SQLite's `strftime('%Y-%m', s)` on date-only strings. -/
def strftimeYM (s : String) : Option String :=
  match s.data with
  | [y1, y2, y3, y4, h1, m1, m2, h2, d1, d2] =>
      if h1 == '-' && h2 == '-' && validYMD y1 y2 y3 y4 m1 m2 d1 d2 then
        some ⟨[y1, y2, y3, y4, '-', m1, m2]⟩
      else none
  | _ => none

/-- The month-filter condition `strftime('%Y-%m', e.date) = ?` of both the
listing and the export query (a NULL extraction compares unequal). -/
def monthMatches (m : String) (date : String) : Bool :=
  match strftimeYM date with
  | some ym => ym == m
  | none => false

/-- Modelled from the spec: "string-prefix semantics", "preserve as literal
substring/prefix equality against the stored date representation" — the
month filter the spec describes, matching when the filter value is literally
a prefix of the stored date string. -/
def monthMatchesSpec (m : String) (date : String) : Bool :=
  m.data.isPrefixOf date.data

/-! ## Data model

The two tables created by `init_db`.  Note that in the schema text
`factura_ref TEXT 'NA'` and `receipt_path TEXT ''`, the string literal is
swallowed into the declared type name (SQLite's `typetoken` grammar accepts
string tokens), so neither column has a DEFAULT clause; `payment_ref` alone
has `DEFAULT 'NA'`.  None of the defaults is ever consulted, because every
INSERT issued by the app lists all columns explicitly. -/

structure Provider where
  id : Nat
  name : String
deriving DecidableEq

structure Expense where
  id : Nat
  date : String
  payment_ref : String
  factura_ref : String
  proveedor_id : Nat
  payment_type : String
  amount : ℚ
  currency : String
  details : String
  delivered_email : Bool
  factura_aparte : Bool
  receipt_path : String
deriving DecidableEq

structure DB where
  providers : List Provider
  expenses : List Expense
  nextProviderId : Nat
  nextExpenseId : Nat
deriving DecidableEq

/-- An uploaded file part (`request.files.get("receipt_path")`). -/
structure RFile where
  filename : String
deriving DecidableEq

/-- The receipts directory: the set of saved filenames under
`static/receipts`. -/
structure FS where
  files : List String
deriving DecidableEq

structure World where
  db : DB
  fs : FS
deriving DecidableEq

/-- Failure modes surfaced to the caller: `KeyError`/`ValueError` while
reading the form, a SQLite constraint violation (CHECK or FOREIGN KEY), or
an OSError from `file.save`. -/
inductive Err where
  | keyOrType
  | constraint
  | fileSave
deriving DecidableEq

/-- A form submission: optional text fields plus checkbox presence. -/
structure Form where
  date : Option String
  payment_ref : Option String
  factura_ref : Option String
  proveedor_id : Option String
  payment_type : Option String
  amount : Option String
  currency : Option String
  details : Option String
  receipt_path : Option String
  delivered_email : Bool
  factura_aparte : Bool
deriving DecidableEq

/-- The schema's CHECK constraint on `payment_type`. -/
def validPaymentType (s : String) : Bool :=
  s == "na" || s == "cash" || s == "card" || s == "transfer" || s == "sinpe"

/-- The schema's CHECK constraint on `currency`. -/
def validCurrency (s : String) : Bool :=
  s == "CRC" || s == "USD"

/-! ## Record mutation operations -/

/-- The values read out of `request.form` for both the insert tuple of
`index` (POST) and the update tuple of `edit`: required lookups
(`request.form[...]`) and the `int`/`float` conversions fail, optional
lookups default to the empty string. -/
structure Fields where
  date : String
  payment_ref : String
  factura_ref : String
  proveedor_id : Nat
  payment_type : String
  amount : ℚ
  currency : String
  details : String
deriving DecidableEq

/-- The required form values: `request.form["date"]`,
`int(request.form["proveedor_id"])`, `request.form["payment_type"]`,
`float(request.form["amount"])`, `request.form["currency"]`; any of them can
raise. -/
def requiredFields (f : Form) :
    Option (String × Nat × String × ℚ × String) := do
  let d ← f.date
  let pidS ← f.proveedor_id
  let pid ← parseNat pidS
  let pt ← f.payment_type
  let amtS ← f.amount
  let amt ← parseAmount amtS
  let cur ← f.currency
  pure (d, pid, pt, amt, cur)

/-- Read and convert the form fields shared by create and edit; the three
optional fields use `request.form.get(..., "")`. -/
def prepareFields (f : Form) : Option Fields :=
  (requiredFields f).map fun r =>
    { date := r.1
      payment_ref := f.payment_ref.getD ""
      factura_ref := f.factura_ref.getD ""
      proveedor_id := r.2.1
      payment_type := r.2.2.1
      amount := r.2.2.2.1
      currency := r.2.2.2.2
      details := f.details.getD "" }

/-- The POST branch of `index`: insert a new expense.  The INSERT lists all
eleven columns, so no column default applies; the storage layer enforces the
two CHECK constraints and the foreign key (every connection runs
`PRAGMA foreign_keys = ON`). -/
def createExpense (f : Form) (db : DB) : DB × Option Err :=
  match prepareFields f with
  | none => (db, some Err.keyOrType)
  | some v =>
      if validPaymentType v.payment_type && validCurrency v.currency &&
          db.providers.any (fun p => p.id == v.proveedor_id) then
        ({ db with
            expenses := db.expenses ++
              [{ id := db.nextExpenseId
                 date := v.date
                 payment_ref := v.payment_ref
                 factura_ref := v.factura_ref
                 proveedor_id := v.proveedor_id
                 payment_type := v.payment_type
                 amount := v.amount
                 currency := v.currency
                 details := v.details
                 delivered_email := f.delivered_email
                 factura_aparte := f.factura_aparte
                 receipt_path := f.receipt_path.getD "" }]
            nextExpenseId := db.nextExpenseId + 1 }, none)
      else (db, some Err.constraint)

/-- The UPDATE tuple of `edit` applied to a row: every column except `id` is
replaced; `receipt_path` receives the value computed by the upload step. -/
def updatedRow (v : Fields) (f : Form) (rp : String) (e : Expense) : Expense :=
  { e with
      date := v.date
      payment_ref := v.payment_ref
      factura_ref := v.factura_ref
      proveedor_id := v.proveedor_id
      payment_type := v.payment_type
      amount := v.amount
      currency := v.currency
      details := v.details
      delivered_email := f.delivered_email
      factura_aparte := f.factura_aparte
      receipt_path := rp }

/-- The tail of `edit` after the upload step: build the data tuple from the
form (this is where `request.form["date"]`, `int(...)` and `float(...)` can
fail) and run the UPDATE.  The UPDATE touches the rows whose `id` matches;
on a touched row the CHECK constraints and the foreign key are enforced. -/
def editAfterSave (id : Nat) (f : Form) (rp : String) (w : World) :
    World × Option Err :=
  match prepareFields f with
  | none => (w, some Err.keyOrType)
  | some v =>
      if w.db.expenses.any (fun e => e.id == id) &&
          !(validPaymentType v.payment_type && validCurrency v.currency &&
            w.db.providers.any (fun p => p.id == v.proveedor_id)) then
        (w, some Err.constraint)
      else
        ({ w with
            db := { w.db with
              expenses := w.db.expenses.map
                (fun e => if e.id == id then updatedRow v f rp e else e) } },
          none)

/-- The `edit` endpoint.  Order of effects, as in the source: read the
current `receipt_path` (empty when the row does not exist); if a file with a
non-empty filename was uploaded, sanitize the name and save the file (which
may fail, aborting the request); only afterwards read and convert the form
fields and run the UPDATE.  `saveOk` models whether the filesystem accepts
the write. -/
def editExpense (id : Nat) (f : Form) (file : Option RFile) (saveOk : Bool)
    (w : World) : World × Option Err :=
  let current :=
    match w.db.expenses.find? (fun e => e.id == id) with
    | some e => e.receipt_path
    | none => ""
  match file with
  | some fl =>
      if fl.filename == "" then editAfterSave id f current w
      else if saveOk then
        editAfterSave id f (secure_filename fl.filename)
          { w with fs := ⟨w.fs.files ++ [secure_filename fl.filename]⟩ }
      else (w, some Err.fileSave)
  | none => editAfterSave id f current w

/-- The `delete` endpoint: unconditional DELETE by id. -/
def deleteExpense (id : Nat) (db : DB) : DB × Option Err :=
  ({ db with expenses := db.expenses.filter (fun e => !(e.id == id)) }, none)

/-- One `INSERT OR IGNORE INTO providers(name) VALUES (?)`: skipped when a
provider with that (UNIQUE) name already exists. -/
def insertProviderIfAbsent (db : DB) (n : String) : DB :=
  if db.providers.any (fun p => p.name == n) then db
  else
    { db with
        providers := db.providers ++ [{ id := db.nextProviderId, name := n }]
        nextProviderId := db.nextProviderId + 1 }

/-- The name list built by `add_provider`:
`[n.strip().title() for n in raw.replace("\n", ",").split(",") if n.strip()]`. -/
def splitNames (raw : String) : List String :=
  (splitOnPred (fun c => c == ',')
      (raw.data.map (fun c => if c == '\n' then ',' else c))).filterMap
    (fun n =>
      let t := stripChars n
      if t.isEmpty then none else some (pyTitle ⟨t⟩))

/-- The `add_provider` endpoint. -/
def addProvider (raw : String) (db : DB) : DB :=
  if pyStrip raw == "" then db
  else List.foldl insertProviderIfAbsent db (splitNames (pyStrip raw))

/-- Deletion of a provider row under the declared schema: the app has no
route for it, so this models the storage engine's semantics of
`FOREIGN KEY (proveedor_id) REFERENCES providers(id) ON DELETE RESTRICT`
with `PRAGMA foreign_keys = ON` (lines 43-52 and 19-23 of `src/app.py`):
deleting a provider row that an expense references fails with a constraint
error and changes nothing. -/
def deleteProvider (id : Nat) (db : DB) : DB × Option Err :=
  if db.providers.any (fun p => p.id == id) &&
      db.expenses.any (fun e => e.proveedor_id == id) then
    (db, some Err.constraint)
  else
    ({ db with providers := db.providers.filter (fun p => !(p.id == id)) }, none)

/-- The write operations of the system, for stating the storage invariant. -/
inductive Op where
  | create (f : Form)
  | edit (id : Nat) (f : Form) (file : Option RFile) (saveOk : Bool)
  | delExpense (id : Nat)
  | addProv (raw : String)
  | delProvider (id : Nat)

/-- Run one operation against the world. -/
def stepOp (op : Op) (w : World) : World × Option Err :=
  match op with
  | .create f =>
      ({ w with db := (createExpense f w.db).1 }, (createExpense f w.db).2)
  | .edit id f file saveOk => editExpense id f file saveOk w
  | .delExpense id =>
      ({ w with db := (deleteExpense id w.db).1 }, (deleteExpense id w.db).2)
  | .addProv raw => ({ w with db := addProvider raw w.db }, none)
  | .delProvider id =>
      ({ w with db := (deleteProvider id w.db).1 }, (deleteProvider id w.db).2)

/-- Referential integrity: every expense's `proveedor_id` names an existing
provider. -/
def FKok (db : DB) : Prop :=
  ∀ e ∈ db.expenses, ∃ p ∈ db.providers, p.id = e.proveedor_id

instance (db : DB) : Decidable (FKok db) := by
  unfold FKok; infer_instance

/-! ## Query builder

`index` (GET) and `export_excel` build the same SQL text modulo the selected
columns: a join of `expenses` with `providers` on `p.id = e.proveedor_id`,
an optional `strftime('%Y-%m', e.date) = ?` month condition, an optional
`e.proveedor_id = ?` condition, an optional `e.payment_type = ?` condition,
and `ORDER BY e.date DESC`.  Rows are modelled as the joined
expense/provider pair; the two endpoints project different column subsets of
the same rows. -/

/-- The three query-string filters of the listing and export endpoints. -/
structure Args where
  month : Option String
  provider : Option String
  payment_type : Option String
deriving DecidableEq

/-- Python truthiness of an optional query parameter: a missing parameter
and an empty string are both falsy, so no condition is added for them. -/
def truthy (o : Option String) : Option String :=
  match o with
  | some s => if s == "" then none else some s
  | none => none

/-- Python's `x or default` on an optional string. -/
def pyOr (o : Option String) (dflt : String) : String :=
  match o with
  | some s => if s == "" then dflt else s
  | none => dflt

/-- The condition `e.proveedor_id = ?` with a text parameter against an
INTEGER-affinity column: the text is converted to an integer when it is a
plain decimal numeral, and compares unequal otherwise. -/
def providerMatches (p : String) (e : Expense) : Bool :=
  match parseNat p with
  | some n => e.proveedor_id == n
  | none => false

/-- The WHERE clause applied to a joined row. -/
def rowFilter (monthF provF ptF : Option String) (r : Expense × Provider) :
    Bool :=
  (match monthF with
   | some m => monthMatches m r.1.date
   | none => true) &&
  (match provF with
   | some p => providerMatches p r.1
   | none => true) &&
  (match ptF with
   | some t => r.1.payment_type == t
   | none => true)

/-- The inner join `expenses e JOIN providers p ON p.id = e.proveedor_id`
(provider ids are unique, so at most one partner per expense). -/
def joinRows (db : DB) : List (Expense × Provider) :=
  db.expenses.filterMap
    (fun e => (db.providers.find? (fun p => p.id == e.proveedor_id)).map
      (fun p => (e, p)))

/-- Stable descending insertion by the stored date string, modelling
`ORDER BY e.date DESC` (ties keep their relative order). -/
def insertByDateDesc (r : Expense × Provider) :
    List (Expense × Provider) → List (Expense × Provider)
  | [] => [r]
  | x :: xs =>
      if x.1.date < r.1.date then r :: x :: xs else x :: insertByDateDesc r xs

/-- Sort joined rows by date, descending, stably. -/
def sortByDateDesc (l : List (Expense × Provider)) :
    List (Expense × Provider) :=
  l.foldl (fun acc r => insertByDateDesc r acc) []

/-- Execute the shared query shape. -/
def runQuery (monthF provF ptF : Option String) (db : DB) :
    List (Expense × Provider) :=
  sortByDateDesc ((joinRows db).filter (rowFilter monthF provF ptF))

/-- The row-set of the listing view (`index`, GET): the month parameter is
defaulted to the current calendar month with
`month = request.args.get("month") or current_month` before the truthiness
test. -/
def listingRows (currentMonth : String) (a : Args) (db : DB) :
    List (Expense × Provider) :=
  runQuery (truthy (some (pyOr a.month currentMonth))) (truthy a.provider)
    (truthy a.payment_type) db

/-- The row-set of the export (`export_excel`): no month default. -/
def exportRows (a : Args) (db : DB) : List (Expense × Provider) :=
  runQuery (truthy a.month) (truthy a.provider) (truthy a.payment_type) db

/-! ## Report generator -/

/-- A spreadsheet cell as written by `export_excel`: a text or a numeric
value. -/
inductive Cell where
  | str (s : String)
  | num (q : ℚ)
deriving DecidableEq

/-- `x or ""` on an already-string column value. -/
def orEmpty (s : String) : String :=
  if s == "" then "" else s

/-- One appended data row of the export worksheet, in column order
Fecha, Proveedor, Pago, Monto, Moneda, Factura Ref, Ref Pago,
Enviado Email, Factura Aparte, Detalles. -/
def renderRow (r : Expense × Provider) : List Cell :=
  [ Cell.str r.1.date
  , Cell.str r.2.name
  , Cell.str (pyCapitalize r.1.payment_type)
  , Cell.num r.1.amount
  , Cell.str r.1.currency
  , Cell.str (orEmpty r.1.factura_ref)
  , Cell.str (orEmpty r.1.payment_ref)
  , Cell.str (if r.1.delivered_email then "Sí" else "No")
  , Cell.str (if r.1.factura_aparte then "Sí" else "No")
  , Cell.str (orEmpty r.1.details) ]

/-- The running-totals loop of `export_excel`: it iterates the worksheet
rows from row 3 to `ws.max_row` — exactly the appended data rows, and no
rows at all when the row-set is empty — reading back the currency cell
(column 5, holding `r["currency"]`) and the amount cell (column 4, holding
`r["amount"]`), adding the amount to the CRC total when the currency cell
equals "CRC", to the USD total when it equals "USD", and to neither
otherwise.  This is the exact-rational (value-level) view of that loop,
used for the report content; the program accumulates with Python float
addition, whose rounding this view abstracts — the faithful binary64
accumulation is `exportTotalsFP` below, and questions that hinge on the
rounding (such as order-sensitivity of the totals) are settled there. -/
def exportTotals (rows : List (Expense × Provider)) : ℚ × ℚ :=
  rows.foldl
    (fun t r =>
      if r.1.currency == "CRC" then (t.1 + r.1.amount, t.2)
      else if r.1.currency == "USD" then (t.1, t.2 + r.1.amount)
      else t)
    (0, 0)

/-- The header row of the export worksheet. -/
def reportHeaders : List String :=
  ["Fecha", "Proveedor", "Pago", "Monto", "Moneda", "Factura Ref",
   "Ref Pago", "Enviado Email", "Factura Aparte", "Detalles"]

/-- The content of the generated workbook: the merged banner cell of row 1,
the header row, the data rows, and the two totals written below them. -/
structure Report where
  banner : String
  headers : List String
  dataRows : List (List Cell)
  totalCRC : ℚ
  totalUSD : ℚ
deriving DecidableEq

/-- Build the export document from the query rows.  `timestamp` is the
rendered `datetime.now()` text. -/
def buildReport (timestamp : String) (rows : List (Expense × Provider)) :
    Report :=
  { banner := "Generated on: " ++ timestamp
    headers := reportHeaders
    dataRows := rows.map renderRow
    totalCRC := (exportTotals rows).1
    totalUSD := (exportTotals rows).2 }

/-! ## Binary64 view of the totals accumulation

`total_crc` and `total_usd` are accumulated with Python float addition
(`total_crc += amt_cell.value`), i.e. IEEE-754 binary64 arithmetic: the
exact sum, rounded to 53 significant bits, to nearest, ties to even.
Finite doubles are dyadic rationals m * 2^e, so the model below implements
correctly rounded addition on dyadics.  Restricted domain: the exponent is
not clamped, so overflow to infinity and subnormal underflow are outside
the modelled domain — within the magnitudes of stored currency amounts the
model coincides with binary64.  The totals start at the int 0, and Python's
int-plus-float promotion is exact, matching a zero dyadic start value. -/

/-- A dyadic rational m * 2^e.  The rounding function returns canonical
values (m odd, or m = 0 and e = 0), so structural equality of its results
is value equality. -/
structure Dyadic where
  m : Int
  e : Int
deriving DecidableEq

/-- Strip factors of two off the mantissa (fuel-driven; the caller passes
enough fuel). -/
def canonAux : Nat → Int → Int → Dyadic
  | 0, m, e => ⟨m, e⟩
  | fuel + 1, m, e =>
      if m % 2 = 0 then canonAux fuel (m / 2) (e + 1) else ⟨m, e⟩

/-- Canonical form of the dyadic m * 2^e. -/
def Dyadic.canon (m e : Int) : Dyadic :=
  if m = 0 then ⟨0, 0⟩ else canonAux m.natAbs m e

/-- Number of binary digits of a natural number (fuel-driven). -/
def bitsAux : Nat → Nat → Nat
  | 0, _ => 0
  | fuel + 1, n => if n = 0 then 0 else bitsAux fuel (n / 2) + 1

/-- Number of binary digits: bitLen 0 = 0, bitLen 2^53 = 54. -/
def bitLen (n : Nat) : Nat :=
  bitsAux n n

/-- Round a magnitude to the nearest multiple of 2^k (k ≥ 1), ties to the
even multiple; the result is in units of 2^k. -/
def roundPos (n : Nat) (k : Nat) : Nat :=
  let d := Nat.pow 2 k
  let q := n / d
  let r := n % d
  let half := d / 2
  if r < half then q
  else if half < r then q + 1
  else if q % 2 = 0 then q else q + 1

/-- Round the exact dyadic value m * 2^e to 53 significant bits, to
nearest, ties to even: the binary64 rounding of an exact real result
(rounding is symmetric in the sign, so it acts on the magnitude). -/
def fpRound (m e : Int) : Dyadic :=
  if m = 0 then ⟨0, 0⟩
  else
    let n := m.natAbs
    let b := bitLen n
    if b ≤ 53 then Dyadic.canon m e
    else
      let k := b - 53
      let n2 := roundPos n k
      Dyadic.canon (if m < 0 then -(n2 : Int) else (n2 : Int)) (e + (k : Int))

/-- IEEE binary64 addition on finite values: align the exponents, take the
exact sum, round correctly. -/
def fpAdd (a b : Dyadic) : Dyadic :=
  let e := if a.e ≤ b.e then a.e else b.e
  fpRound
    (a.m * Int.ofNat (Nat.pow 2 (a.e - e).toNat) +
      b.m * Int.ofNat (Nat.pow 2 (b.e - e).toNat)) e

/-- The float-level content of one data row as read back by the totals
loop: the amount cell as the stored binary64 value, and the currency
cell. -/
structure FPRow where
  amount : Dyadic
  currency : String
deriving DecidableEq

/-- The running-totals loop of `export_excel` at the float level: the same
iteration and currency dispatch as `exportTotals`, but accumulating each
total with binary64 addition, as `total_crc += amt_cell.value` does on
Python floats. -/
def exportTotalsFP (rows : List FPRow) : Dyadic × Dyadic :=
  rows.foldl
    (fun t r =>
      if r.currency == "CRC" then (fpAdd t.1 r.amount, t.2)
      else if r.currency == "USD" then (t.1, fpAdd t.2 r.amount)
      else t)
    (⟨0, 0⟩, ⟨0, 0⟩)

/-! ## Concrete fixtures used by counterexamples and witnesses -/

def provAcme : Provider :=
  { id := 1, name := "Acme" }

def baseExpense : Expense :=
  { id := 1, date := "2024-03-15", payment_ref := "", factura_ref := "",
    proveedor_id := 1, payment_type := "card", amount := 100,
    currency := "CRC", details := "", delivered_email := false,
    factura_aparte := false, receipt_path := "old.png" }

def baseDB : DB :=
  { providers := [provAcme], expenses := [baseExpense],
    nextProviderId := 2, nextExpenseId := 2 }

def baseWorld : World :=
  { db := baseDB, fs := ⟨[]⟩ }

def emptyDB : DB :=
  { providers := [], expenses := [], nextProviderId := 1, nextExpenseId := 1 }

def goodForm : Form :=
  { date := some "2024-06-01", payment_ref := some "P1",
    factura_ref := some "F1", proveedor_id := some "1",
    payment_type := some "cash", amount := some "1500.50",
    currency := some "USD", details := some "d", receipt_path := some "",
    delivered_email := true, factura_aparte := false }

def goodFields : Fields :=
  (prepareFields goodForm).get (by decide)

def badAmountForm : Form :=
  { goodForm with amount := some "abc" }

def noRefForm : Form :=
  { goodForm with payment_ref := none, factura_ref := none }

def noRefFields : Fields :=
  (prepareFields noRefForm).get (by decide)

def bigRow : FPRow :=
  ⟨⟨9007199254740992, 0⟩, "CRC"⟩

def oneRow : FPRow :=
  ⟨⟨1, 0⟩, "CRC"⟩

/-! ## Theorems -/

/-- Claim C2, counterexample: month matching is not string-prefix matching
for every stored date string.  The malformed stored date "2024-03" is
prefix-matched by the filter "2024-03" under the spec's semantics, but the
code's `strftime('%Y-%m', e.date) = ?` condition rejects it, because the
string does not parse as a date and the extraction yields NULL. -/
theorem month_filter_not_plain_match :
    monthMatchesSpec "2024-03" "2024-03" = true ∧
    monthMatches "2024-03" "2024-03" = false := by
  decide

/-- Claim C2, amended: for stored dates in SQLite's accepted
`YYYY-MM-DD` format (all-digit components, month 01-12, day 01-31), the
month filter matches exactly when the filter value equals the seven-character
year-month prefix of the stored string; in particular "2024-03" matches
"2024-03-15" and matches neither "2024-04-01" nor "2023-03-01".  Stored
strings outside that format (such as a bare "2024-03") never match. -/
theorem month_filter_strftime_semantics :
    (∀ (m : String) (y1 y2 y3 y4 m1 m2 d1 d2 : Char),
        validYMD y1 y2 y3 y4 m1 m2 d1 d2 = true →
        monthMatches m ⟨[y1, y2, y3, y4, '-', m1, m2, '-', d1, d2]⟩ =
          (String.mk [y1, y2, y3, y4, '-', m1, m2] == m)) ∧
    monthMatches "2024-03" "2024-03-15" = true ∧
    monthMatches "2024-03" "2024-04-01" = false ∧
    monthMatches "2024-03" "2023-03-01" = false ∧
    monthMatches "2024-03" "2024-03" = false := by
  refine ⟨?_, by decide, by decide, by decide, by decide⟩
  intro m y1 y2 y3 y4 m1 m2 d1 d2 h
  simp [monthMatches, strftimeYM, h]

/-- Claim C2, witness for the amended theorem at the stored date
"2024-03-15" and filter "2024-03". -/
theorem month_filter_strftime_semantics_witness :
    validYMD '2' '0' '2' '4' '0' '3' '1' '5' = true ∧
    monthMatches "2024-03" ⟨['2', '0', '2', '4', '-', '0', '3', '-', '1', '5']⟩ =
      (String.mk ['2', '0', '2', '4', '-', '0', '3'] == "2024-03") :=
  ⟨by decide,
   month_filter_strftime_semantics.1 "2024-03" '2' '0' '2' '4' '0' '3' '1' '5'
     (by decide)⟩

/-- Claim C8: exporting an empty row-set still succeeds and yields a
document with the banner, the ten column headers, no data rows, and both
totals equal to zero. -/
theorem export_empty_rowset_report (ts : String) :
    (buildReport ts []).banner = "Generated on: " ++ ts ∧
    (buildReport ts []).headers =
      ["Fecha", "Proveedor", "Pago", "Monto", "Moneda", "Factura Ref",
       "Ref Pago", "Enviado Email", "Factura Aparte", "Detalles"] ∧
    (buildReport ts []).headers.length = 10 ∧
    (buildReport ts []).dataRows = [] ∧
    (buildReport ts []).totalCRC = 0 ∧
    (buildReport ts []).totalUSD = 0 :=
  ⟨rfl, rfl, rfl, rfl, rfl, rfl⟩

/-- Accumulator form of the float-level running-totals loop: each total is
the left-to-right binary64 accumulation over exactly the rows of its
currency, in row order (no commutativity or associativity is assumed of
`fpAdd`, and none holds). -/
theorem exportTotalsFP_foldl (rows : List FPRow) :
    ∀ t : Dyadic × Dyadic,
      rows.foldl
        (fun t r =>
          if r.currency == "CRC" then (fpAdd t.1 r.amount, t.2)
          else if r.currency == "USD" then (t.1, fpAdd t.2 r.amount)
          else t)
        t =
      (((rows.filter (fun r => r.currency == "CRC")).map
          (fun r => r.amount)).foldl fpAdd t.1,
       ((rows.filter (fun r => r.currency == "USD")).map
          (fun r => r.amount)).foldl fpAdd t.2) := by
  induction rows with
  | nil => intro t; rfl
  | cons r rows ih =>
    intro t
    rw [List.foldl_cons, ih]
    cases h1 : (r.currency == "CRC") with
    | true =>
        have he : r.currency = "CRC" := eq_of_beq h1
        simp [he, List.filter_cons]
    | false =>
        cases h2 : (r.currency == "USD") with
        | true =>
            have he : r.currency = "USD" := eq_of_beq h2
            simp [he, List.filter_cons]
        | false =>
            simp [h1, h2, List.filter_cons]

/-- Claim C4, counterexample: the totals are not insensitive to row order.
With binary64 accumulation, the CRC amounts 2^53, 1, 1 total 2^53 in that
order (each + 1 after 2^53 falls on a tie and rounds back down to the even
mantissa), while the permuted order 1, 1, 2^53 totals 2^53 + 2 (1 + 1 = 2
is exact and 2^53 + 2 is representable).  9007199254740992 = 2^53 and
4503599627370497 * 2 = 2^53 + 2. -/
theorem export_totals_order_sensitive :
    List.Perm [bigRow, oneRow, oneRow] [oneRow, oneRow, bigRow] ∧
    exportTotalsFP [bigRow, oneRow, oneRow] =
      (Dyadic.mk 1 53, Dyadic.mk 0 0) ∧
    exportTotalsFP [oneRow, oneRow, bigRow] =
      (Dyadic.mk 4503599627370497 1, Dyadic.mk 0 0) ∧
    exportTotalsFP [bigRow, oneRow, oneRow] ≠
      exportTotalsFP [oneRow, oneRow, bigRow] := by
  decide

/-- Claim C4, amended: each currency total equals the left-to-right
binary64 accumulation of the amount column over exactly the rows whose
currency equals that code (CRC for the CRC total, USD for the USD total);
rows with any other currency value contribute to neither total and cause
no error.  Because every addition rounds, the totals depend on the order
of the rows in general; they are order-insensitive only under exact
arithmetic. -/
theorem export_totals_fp_by_currency (rows : List FPRow) :
    exportTotalsFP rows =
      (((rows.filter (fun r => r.currency == "CRC")).map
          (fun r => r.amount)).foldl fpAdd ⟨0, 0⟩,
       ((rows.filter (fun r => r.currency == "USD")).map
          (fun r => r.amount)).foldl fpAdd ⟨0, 0⟩) :=
  exportTotalsFP_foldl rows (⟨0, 0⟩, ⟨0, 0⟩)

/-- Claim C1, counterexample: when no month filter is supplied the two
row-sets differ.  The listing defaults the month to the current calendar
month ("2025-10" here) while the export applies no month condition at all,
so an expense dated "2024-03-15" appears in the export but not in the
listing. -/
theorem export_differs_from_listing_without_month :
    listingRows "2025-10" (Args.mk none none none) baseDB = [] ∧
    exportRows (Args.mk none none none) baseDB = [(baseExpense, provAcme)] := by
  decide

/-- Claim C1, amended: for every filter combination in which a non-empty
month parameter is supplied, the export row-set equals the listing row-set
in content and order; without a month parameter, the listing restricts to
the current month while the export returns all months. -/
theorem export_matches_listing_with_month (currentMonth : String) (a : Args)
    (db : DB) (h : ∃ s, a.month = some s ∧ s ≠ "") :
    listingRows currentMonth a db = exportRows a db := by
  obtain ⟨s, hm, hs⟩ := h
  unfold listingRows exportRows
  rw [hm]
  simp [pyOr, truthy, hs]

/-- Claim C1, witness for the amended theorem with month filter "2024-03". -/
theorem export_matches_listing_with_month_witness :
    (∃ s, (Args.mk (some "2024-03") none none).month = some s ∧ s ≠ "") ∧
    listingRows "2025-10" (Args.mk (some "2024-03") none none) baseDB =
      exportRows (Args.mk (some "2024-03") none none) baseDB :=
  ⟨⟨"2024-03", rfl, by decide⟩,
   export_matches_listing_with_month "2025-10" (Args.mk (some "2024-03") none none)
     baseDB ⟨"2024-03", rfl, by decide⟩⟩

/-- One `INSERT OR IGNORE` leaves the expense table untouched. -/
theorem insertProviderIfAbsent_expenses (db : DB) (n : String) :
    (insertProviderIfAbsent db n).expenses = db.expenses := by
  unfold insertProviderIfAbsent
  split <;> rfl

/-- A batch of `INSERT OR IGNORE`s leaves the expense table untouched. -/
theorem insertAll_expenses (names : List String) :
    ∀ db : DB,
      (List.foldl insertProviderIfAbsent db names).expenses = db.expenses := by
  induction names with
  | nil => intro db; rfl
  | cons n ns ih =>
      intro db
      rw [List.foldl_cons, ih, insertProviderIfAbsent_expenses]

/-- One `INSERT OR IGNORE` only ever appends provider rows. -/
theorem insertProviderIfAbsent_mem (db : DB) (n : String) :
    ∀ p ∈ db.providers, p ∈ (insertProviderIfAbsent db n).providers := by
  intro p hp
  unfold insertProviderIfAbsent
  split
  · exact hp
  · exact List.mem_append_left _ hp

/-- A batch of `INSERT OR IGNORE`s only ever appends provider rows. -/
theorem insertAll_mem (names : List String) :
    ∀ db : DB, ∀ p ∈ db.providers,
      p ∈ (List.foldl insertProviderIfAbsent db names).providers := by
  induction names with
  | nil => intro db p hp; exact hp
  | cons n ns ih =>
      intro db p hp
      rw [List.foldl_cons]
      exact ih _ _ (insertProviderIfAbsent_mem _ _ _ hp)

/-- After `INSERT OR IGNORE` of a name, some provider carries that name. -/
theorem insertProviderIfAbsent_hasName_self (db : DB) (n : String) :
    ∃ p ∈ (insertProviderIfAbsent db n).providers, p.name = n := by
  unfold insertProviderIfAbsent
  cases h : db.providers.any (fun p => p.name == n) with
  | true =>
      simp only [h, if_true]
      obtain ⟨p, hp, hpn⟩ := List.any_eq_true.mp h
      exact ⟨p, hp, eq_of_beq hpn⟩
  | false =>
      simp [h]
      exact ⟨{ id := db.nextProviderId, name := n }, Or.inr rfl, rfl⟩

/-- After a batch insert, every inserted name is carried by some provider. -/
theorem insertAll_hasName_of_mem (names : List String) :
    ∀ db : DB, ∀ n ∈ names,
      ∃ p ∈ (List.foldl insertProviderIfAbsent db names).providers,
        p.name = n := by
  induction names with
  | nil => intro db n hn; simp at hn
  | cons n0 ns ih =>
      intro db n hn
      rw [List.foldl_cons]
      rcases List.mem_cons.mp hn with h | h
      · subst h
        obtain ⟨p, hp, hpn⟩ := insertProviderIfAbsent_hasName_self db n
        exact ⟨p, insertAll_mem ns _ p hp, hpn⟩
      · exact ih _ n h

/-- `INSERT OR IGNORE` of a name that is already present is a no-op. -/
theorem insertProviderIfAbsent_of_hasName (db : DB) (n : String)
    (h : ∃ p ∈ db.providers, p.name = n) : insertProviderIfAbsent db n = db := by
  obtain ⟨p, hp, hpn⟩ := h
  unfold insertProviderIfAbsent
  have ha : db.providers.any (fun p => p.name == n) = true :=
    List.any_eq_true.mpr ⟨p, hp, by simp [hpn]⟩
  simp [ha]

/-- A batch insert of names that are all already present is a no-op. -/
theorem insertAll_of_hasAll (names : List String) :
    ∀ db : DB, (∀ n ∈ names, ∃ p ∈ db.providers, p.name = n) →
      List.foldl insertProviderIfAbsent db names = db := by
  induction names with
  | nil => intro db _; rfl
  | cons n0 ns ih =>
      intro db h
      rw [List.foldl_cons,
        insertProviderIfAbsent_of_hasName db n0 (h n0 (List.mem_cons_self _ _))]
      exact ih db (fun n hn => h n (List.mem_cons_of_mem _ hn))

/-- Claim C5: provider adding splits on commas and newlines, trims,
title-cases and dedupe-inserts, so it is idempotent; submitting
"Acme, acme,  ACME " to an empty store yields exactly one provider named
"Acme"; and input that is empty after trimming changes nothing. -/
theorem add_provider_normalized_idempotent :
    (∀ (db : DB) (raw : String),
        addProvider raw (addProvider raw db) = addProvider raw db) ∧
    (addProvider "Acme, acme,  ACME " emptyDB).providers =
      [{ id := 1, name := "Acme" }] ∧
    (∀ (db : DB) (raw : String), pyStrip raw = "" → addProvider raw db = db) := by
  refine ⟨?_, by decide, ?_⟩
  · intro db raw
    unfold addProvider
    cases h : (pyStrip raw == "") with
    | true => simp [h]
    | false =>
        simp only [h, Bool.false_eq_true, if_false]
        exact insertAll_of_hasAll _ _
          (fun n hn => insertAll_hasName_of_mem _ db n hn)
  · intro db raw h
    unfold addProvider
    simp [h]

/-- Claim C5, witness: whitespace-only input is a no-op. -/
theorem add_provider_normalized_idempotent_witness :
    pyStrip "   " = "" ∧ addProvider "   " baseDB = baseDB :=
  ⟨by decide, add_provider_normalized_idempotent.2.2 baseDB "   " (by decide)⟩

/-- Claim C3, counterexample: the edit endpoint saves the uploaded receipt
file before reading and converting the submitted fields.  With a malformed
amount ("abc") and an uploaded file, field preparation fails and no row is
written, yet the file has already been written to the receipts directory —
refuting the claimed ordering (validate and prepare all fields first, then
attempt the file save). -/
theorem edit_writes_file_before_validation :
    prepareFields badAmountForm = none ∧
    (editExpense 1 badAmountForm (some ⟨"r.png"⟩) true baseWorld).1.fs.files =
      ["r.png"] ∧
    (editExpense 1 badAmountForm (some ⟨"r.png"⟩) true baseWorld).2 =
      some Err.keyOrType ∧
    (editExpense 1 badAmountForm (some ⟨"r.png"⟩) true baseWorld).1.db =
      baseDB := by
  decide

/-- Claim C3, amended: the edit operation reads the stored receipt path,
then attempts the receipt file save, then reads and converts the submitted
fields, and only then writes the row; consequently, whenever the file save
fails the request aborts with a file-save error and the stored state — in
particular the expense row — is left completely unchanged. -/
theorem edit_file_save_failure_leaves_row_unchanged (id : Nat) (f : Form)
    (fl : RFile) (w : World) (h : fl.filename ≠ "") :
    editExpense id f (some fl) false w = (w, some Err.fileSave) := by
  unfold editExpense
  simp [h]

/-- Claim C3, witness for the amended theorem. -/
theorem edit_file_save_failure_leaves_row_unchanged_witness :
    (RFile.mk "r.png").filename ≠ "" ∧
    editExpense 1 goodForm (some (RFile.mk "r.png")) false baseWorld =
      (baseWorld, some Err.fileSave) :=
  ⟨by decide,
   edit_file_save_failure_leaves_row_unchanged 1 goodForm (RFile.mk "r.png")
     baseWorld (by decide)⟩

/-- Claim C7: editing an existing expense with no uploaded file (missing
part or empty filename) succeeds, leaves the receipts directory untouched,
and rewrites the matched row with the submitted values except that
`receipt_path` keeps its previously stored value exactly; every other row
is untouched. -/
theorem edit_without_file_preserves_receipt_path (w : World) (id : Nat)
    (f : Form) (file : Option RFile) (ok : Bool) (e0 : Expense) (v : Fields)
    (hfile : file = none ∨ file = some (RFile.mk ""))
    (hfind : w.db.expenses.find? (fun e => e.id == id) = some e0)
    (hnd : (w.db.expenses.map Expense.id).Nodup)
    (hprep : prepareFields f = some v)
    (hpt : validPaymentType v.payment_type = true)
    (hcur : validCurrency v.currency = true)
    (hfk : w.db.providers.any (fun p => p.id == v.proveedor_id) = true) :
    (editExpense id f file ok w).2 = none ∧
    (editExpense id f file ok w).1.fs = w.fs ∧
    ∀ e' ∈ (editExpense id f file ok w).1.db.expenses,
      (e'.id = id → e' = updatedRow v f e0.receipt_path e0) ∧
      (e'.id ≠ id → e' ∈ w.db.expenses) := by
  have hmem : e0 ∈ w.db.expenses := List.mem_of_find?_eq_some hfind
  have hpe' := List.find?_some hfind
  have hpe : (e0.id == id) = true := hpe'
  have hid0 : e0.id = id := eq_of_beq hpe
  have hrow : w.db.expenses.any (fun e => e.id == id) = true :=
    List.any_eq_true.mpr ⟨e0, hmem, hpe⟩
  have hred : editExpense id f file ok w = editAfterSave id f e0.receipt_path w := by
    rcases hfile with h | h <;> subst h <;> simp [editExpense, hfind]
  rw [hred]
  unfold editAfterSave
  rw [hprep]
  simp only [hrow, hpt, hcur, hfk, Bool.and_self, Bool.not_true,
    Bool.and_false, Bool.false_eq_true, if_false]
  refine ⟨trivial, trivial, ?_⟩
  intro e' he'
  obtain ⟨a, ha, hae⟩ := List.mem_map.mp he'
  constructor
  · intro hid
    cases hc : (a.id == id) with
    | false =>
        exfalso
        rw [← hae] at hid
        simp only [hc, Bool.false_eq_true, if_false] at hid
        exact absurd (beq_iff_eq.mpr hid) (by simp [hc])
    | true =>
        have hone : a = e0 :=
          List.inj_on_of_nodup_map hnd ha hmem (by rw [eq_of_beq hc, hid0])
        rw [← hae]
        simp only [hc, if_true]
        rw [hone]
  · intro hne
    cases hc : (a.id == id) with
    | true =>
        exfalso
        apply hne
        rw [← hae]
        simp only [hc, if_true]
        exact eq_of_beq hc
    | false =>
        rw [← hae]
        simp only [hc, Bool.false_eq_true, if_false]
        exact ha

/-- Claim C7, witness: editing the fixture expense with no file keeps its
stored receipt path "old.png". -/
theorem edit_without_file_preserves_receipt_path_witness :
    (baseWorld.db.expenses.find? (fun e => e.id == 1) = some baseExpense ∧
     (baseWorld.db.expenses.map Expense.id).Nodup ∧
     prepareFields goodForm = some goodFields) ∧
    (editExpense 1 goodForm none true baseWorld).2 = none ∧
    (editExpense 1 goodForm none true baseWorld).1.fs = baseWorld.fs ∧
    ∀ e' ∈ (editExpense 1 goodForm none true baseWorld).1.db.expenses,
      (e'.id = 1 → e' = updatedRow goodFields goodForm baseExpense.receipt_path baseExpense) ∧
      (e'.id ≠ 1 → e' ∈ baseWorld.db.expenses) :=
  ⟨⟨by decide, by decide, (Option.some_get (by decide)).symm⟩,
   edit_without_file_preserves_receipt_path baseWorld 1 goodForm none true
     baseExpense goodFields (Or.inl rfl) (by decide) (by decide)
     (Option.some_get (by decide)).symm (by decide) (by decide) (by decide)⟩

/-- Claim C10: invoking the edit operation with an expense id that does not
exist leaves the expense table unchanged and returns success; but when the
submission carries a new receipt file, that file is still written into the
receipts directory. -/
theorem edit_nonexistent_id_noop_but_file_saved (w : World) (id : Nat)
    (f : Form) (fl : RFile) (v : Fields)
    (habs : ∀ e ∈ w.db.expenses, e.id ≠ id)
    (hfn : fl.filename ≠ "")
    (hprep : prepareFields f = some v) :
    (editExpense id f (some fl) true w).2 = none ∧
    (editExpense id f (some fl) true w).1.db = w.db ∧
    (editExpense id f (some fl) true w).1.fs.files =
      w.fs.files ++ [secure_filename fl.filename] := by
  have hfind : w.db.expenses.find? (fun e => e.id == id) = none := by
    rw [List.find?_eq_none]
    intro e he
    simp [habs e he]
  have hrow : w.db.expenses.any (fun e => e.id == id) = false := by
    rw [List.any_eq_false]
    intro e he
    simp [habs e he]
  unfold editExpense
  simp only [hfind]
  simp [hfn]
  unfold editAfterSave
  rw [hprep]
  simp only [hrow, Bool.false_and, Bool.false_eq_true, if_false]
  refine ⟨trivial, ?_, trivial⟩
  have h1 : w.db.expenses.map
      (fun e => if e.id == id then updatedRow v f (secure_filename fl.filename) e else e) =
      w.db.expenses.map (fun e => e) :=
    List.map_congr_left (fun e he => by simp [habs e he])
  rw [h1]
  simp

/-- Claim C10, witness: editing the absent id 99 on the fixture world. -/
theorem edit_nonexistent_id_noop_but_file_saved_witness :
    (∀ e ∈ baseWorld.db.expenses, e.id ≠ 99) ∧
    (editExpense 99 goodForm (some (RFile.mk "r.png")) true baseWorld).2 = none ∧
    (editExpense 99 goodForm (some (RFile.mk "r.png")) true baseWorld).1.db =
      baseWorld.db ∧
    (editExpense 99 goodForm (some (RFile.mk "r.png")) true baseWorld).1.fs.files =
      baseWorld.fs.files ++ [secure_filename (RFile.mk "r.png").filename] :=
  ⟨by decide,
   edit_nonexistent_id_noop_but_file_saved baseWorld 99 goodForm (RFile.mk "r.png")
     goodFields (by decide) (by decide) (Option.some_get (by decide)).symm⟩

/-- Projections of a successful field preparation: the two reference fields
come from `request.form.get(..., "")`, so a missing field yields "". -/
theorem prepareFields_refs (f : Form) (v : Fields)
    (h : prepareFields f = some v) :
    v.payment_ref = f.payment_ref.getD "" ∧
    v.factura_ref = f.factura_ref.getD "" := by
  unfold prepareFields at h
  rw [Option.map_eq_some'] at h
  obtain ⟨r, hr, hv⟩ := h
  rw [← hv]
  exact ⟨rfl, rfl⟩

/-- Claim C9: creating an expense from a form that omits `payment_ref` or
`factura_ref` succeeds and stores the empty string (not "NA" or any other
placeholder) for the omitted field. -/
theorem create_omitted_refs_default_empty (db : DB) (f : Form) (v : Fields)
    (hpr : f.payment_ref = none) (hfr : f.factura_ref = none)
    (hprep : prepareFields f = some v)
    (hpt : validPaymentType v.payment_type = true)
    (hcur : validCurrency v.currency = true)
    (hfk : db.providers.any (fun p => p.id == v.proveedor_id) = true) :
    (createExpense f db).2 = none ∧
    ∃ e : Expense, (createExpense f db).1.expenses = db.expenses ++ [e] ∧
      e.payment_ref = "" ∧ e.factura_ref = "" := by
  obtain ⟨h1, h2⟩ := prepareFields_refs f v hprep
  unfold createExpense
  rw [hprep]
  simp only [hpt, hcur, hfk, Bool.and_self, if_true]
  refine ⟨trivial, ⟨_, rfl, ?_, ?_⟩⟩
  · rw [h1, hpr]; rfl
  · rw [h2, hfr]; rfl

/-- Claim C9, witness: creating from the fixture form with both reference
fields omitted stores "" in both columns. -/
theorem create_omitted_refs_default_empty_witness :
    (noRefForm.payment_ref = none ∧ noRefForm.factura_ref = none ∧
     prepareFields noRefForm = some noRefFields) ∧
    (createExpense noRefForm baseDB).2 = none ∧
    ∃ e : Expense,
      (createExpense noRefForm baseDB).1.expenses = baseDB.expenses ++ [e] ∧
      e.payment_ref = "" ∧ e.factura_ref = "" :=
  ⟨⟨rfl, rfl, (Option.some_get (by decide)).symm⟩,
   create_omitted_refs_default_empty baseDB noRefForm noRefFields rfl rfl
     (Option.some_get (by decide)).symm (by decide) (by decide) (by decide)⟩

/-- Creating an expense preserves referential integrity: the insert is
guarded by the foreign-key check. -/
theorem createExpense_fk (f : Form) (db : DB) (h : FKok db) :
    FKok (createExpense f db).1 := by
  cases hp : prepareFields f with
  | none => simpa [createExpense, hp] using h
  | some v =>
      cases hg : (validPaymentType v.payment_type && validCurrency v.currency &&
          db.providers.any (fun p => p.id == v.proveedor_id)) with
      | false => simpa [createExpense, hp, hg] using h
      | true =>
          have hany : db.providers.any (fun p => p.id == v.proveedor_id) = true := by
            cases ha : db.providers.any (fun p => p.id == v.proveedor_id) with
            | false => rw [ha] at hg; simp at hg
            | true => rfl
          simp only [createExpense, hp, hg, if_true]
          intro e he
          rcases List.mem_append.mp he with h1 | h1
          · exact h e h1
          · rw [List.mem_singleton] at h1
            subst h1
            obtain ⟨p, hpmem, hbeq⟩ := List.any_eq_true.mp hany
            exact ⟨p, hpmem, eq_of_beq hbeq⟩

/-- The UPDATE tail of the edit operation preserves referential integrity. -/
theorem editAfterSave_fk (id : Nat) (f : Form) (rp : String) (w : World)
    (h : FKok w.db) : FKok (editAfterSave id f rp w).1.db := by
  cases hp : prepareFields f with
  | none => simpa [editAfterSave, hp] using h
  | some v =>
      cases hg : (w.db.expenses.any (fun e => e.id == id) &&
          !(validPaymentType v.payment_type && validCurrency v.currency &&
            w.db.providers.any (fun p => p.id == v.proveedor_id))) with
      | true =>
          simp only [editAfterSave, hp, hg, if_true]
          exact h
      | false =>
          simp only [editAfterSave, hp, hg, Bool.false_eq_true, if_false]
          intro e he
          obtain ⟨a, ha, hae⟩ := List.mem_map.mp he
          cases hc : (a.id == id) with
          | false =>
              rw [← hae]
              simp only [hc, Bool.false_eq_true, if_false]
              exact h a ha
          | true =>
              rw [← hae]
              simp only [hc, if_true]
              have hrow : w.db.expenses.any (fun e => e.id == id) = true :=
                List.any_eq_true.mpr ⟨a, ha, hc⟩
              have hany : w.db.providers.any
                  (fun p => p.id == v.proveedor_id) = true := by
                cases ha2 : w.db.providers.any (fun p => p.id == v.proveedor_id) with
                | false => rw [hrow, ha2] at hg; simp at hg
                | true => rfl
              obtain ⟨p, hpmem, hbeq⟩ := List.any_eq_true.mp hany
              exact ⟨p, hpmem, eq_of_beq hbeq⟩

/-- The whole edit operation preserves referential integrity. -/
theorem editExpense_fk (id : Nat) (f : Form) (file : Option RFile)
    (ok : Bool) (w : World) (h : FKok w.db) :
    FKok (editExpense id f file ok w).1.db := by
  unfold editExpense
  cases file with
  | none => exact editAfterSave_fk _ _ _ _ h
  | some fl =>
      cases hc : (fl.filename == "") with
      | true =>
          simp only [hc, if_true]
          exact editAfterSave_fk _ _ _ _ h
      | false =>
          simp only [hc, Bool.false_eq_true, if_false]
          cases ok with
          | true => exact editAfterSave_fk _ _ _ _ h
          | false => exact h

/-- Deleting an expense preserves referential integrity. -/
theorem deleteExpense_fk (id : Nat) (db : DB) (h : FKok db) :
    FKok (deleteExpense id db).1 := by
  intro e he
  exact h e (List.mem_of_mem_filter he)

/-- Provider adding never touches expenses. -/
theorem addProvider_expenses (raw : String) (db : DB) :
    (addProvider raw db).expenses = db.expenses := by
  unfold addProvider
  split
  · rfl
  · exact insertAll_expenses _ _

/-- Provider adding only ever appends provider rows. -/
theorem addProvider_mem_providers (raw : String) (db : DB) :
    ∀ p ∈ db.providers, p ∈ (addProvider raw db).providers := by
  intro p hp
  unfold addProvider
  split
  · exact hp
  · exact insertAll_mem _ _ _ hp

/-- Provider adding preserves referential integrity. -/
theorem addProvider_fk (raw : String) (db : DB) (h : FKok db) :
    FKok (addProvider raw db) := by
  intro e he
  rw [addProvider_expenses] at he
  obtain ⟨p, hp, hpe⟩ := h e he
  exact ⟨p, addProvider_mem_providers raw db p hp, hpe⟩

/-- Provider deletion preserves referential integrity: a referenced
provider is protected by ON DELETE RESTRICT. -/
theorem deleteProvider_fk (id : Nat) (db : DB) (h : FKok db) :
    FKok (deleteProvider id db).1 := by
  cases hg : (db.providers.any (fun p => p.id == id) &&
      db.expenses.any (fun e => e.proveedor_id == id)) with
  | true => simpa [deleteProvider, hg] using h
  | false =>
      simp only [deleteProvider, hg, Bool.false_eq_true, if_false]
      intro e he
      obtain ⟨p, hp, hpe⟩ := h e he
      refine ⟨p, List.mem_filter.mpr ⟨hp, ?_⟩, hpe⟩
      cases hpid : (p.id == id) with
      | false => simp [hpid]
      | true =>
          exfalso
          have h1 : db.providers.any (fun q => q.id == id) = true :=
            List.any_eq_true.mpr ⟨p, hp, hpid⟩
          have h2 : db.expenses.any (fun x => x.proveedor_id == id) = true :=
            List.any_eq_true.mpr
              ⟨e, he, beq_iff_eq.mpr (hpe.symm.trans (eq_of_beq hpid))⟩
          rw [h1, h2] at hg
          simp at hg

/-- Every operation of the system preserves referential integrity. -/
theorem stepOp_fk (op : Op) (w : World) (h : FKok w.db) :
    FKok (stepOp op w).1.db := by
  cases op with
  | create f => exact createExpense_fk f w.db h
  | edit id f file saveOk => exact editExpense_fk id f file saveOk w h
  | delExpense id => exact deleteExpense_fk id w.db h
  | addProv raw => exact addProvider_fk raw w.db h
  | delProvider id => exact deleteProvider_fk id w.db h

/-- Claim C6: every operation preserves the invariant that each expense's
provider foreign key references an existing provider; and deleting a
provider that is referenced by at least one expense fails with a constraint
error, leaving the provider and all its referencing expenses (indeed the
whole state) unchanged. -/
theorem expense_provider_fk_invariant :
    (∀ (op : Op) (w : World), FKok w.db → FKok (stepOp op w).1.db) ∧
    (∀ (w : World) (pid : Nat), FKok w.db →
        (∃ e ∈ w.db.expenses, e.proveedor_id = pid) →
        stepOp (Op.delProvider pid) w = (w, some Err.constraint)) := by
  constructor
  · intro op w h
    exact stepOp_fk op w h
  · intro w pid hfk href
    obtain ⟨e, he, hpe⟩ := href
    obtain ⟨p, hp, hpid⟩ := hfk e he
    have h1 : w.db.providers.any (fun q => q.id == pid) = true :=
      List.any_eq_true.mpr ⟨p, hp, beq_iff_eq.mpr (hpid.trans hpe)⟩
    have h2 : w.db.expenses.any (fun x => x.proveedor_id == pid) = true :=
      List.any_eq_true.mpr ⟨e, he, beq_iff_eq.mpr hpe⟩
    unfold stepOp deleteProvider
    simp only [h1, h2, Bool.and_self, if_true]

/-- Claim C6, witness: deleting provider 1, referenced by the fixture
expense, fails and leaves the world unchanged. -/
theorem expense_provider_fk_invariant_witness :
    FKok baseWorld.db ∧
    stepOp (Op.delProvider 1) baseWorld = (baseWorld, some Err.constraint) :=
  ⟨by decide,
   expense_provider_fk_invariant.2 baseWorld 1 (by decide)
     ⟨baseExpense, by decide, by decide⟩⟩

end Tabla
